import Mathlib

set_option maxRecDepth 100000

/-!
# Verification of a ChaCha20 keystream generator

Shallow embedding of the Rust sources `src/byte_manipulation.rs` and
`src/chacha20.rs`.  Machine integers (`u32`) are modelled as `Nat` with
explicit reduction `% 2^32` exactly where the Rust code wraps; byte slices
and the 16-word cipher state are modelled as `List Nat`; the Rust
`assert_eq!` length guards are modelled by returning `Option`.
-/

namespace ByteManipulation

/-- Embedding of `string_to_u32_le` (src/byte_manipulation.rs).  The input
string is represented by its list of bytes.  The Rust function asserts the
length is 4 and then folds over the enumerated bytes, OR-ing in
`(0x000000FF << (i * 8)) & ((byte as u32) << (i * 8))` at each step. -/
def string_to_u32_le (string : List Nat) : Option Nat :=
  if string.length = 4 then
    some (string.enum.foldl
      (fun output ib =>
        output ||| ((0x000000FF <<< (ib.1 * 8)) &&& (ib.2 <<< (ib.1 * 8))))
      0)
  else none

/-- Embedding of `u8_array_to_u32_le` (src/byte_manipulation.rs).  Asserts
the slice has length 4, then starting from `output = 0` ORs in the four
masked, shifted bytes in order. -/
def u8_array_to_u32_le (arr : List Nat) : Option Nat :=
  if arr.length = 4 then
    some (((((0 : Nat)
      ||| (0x000000FF &&& arr.getD 0 0))
      ||| (0x0000FF00 &&& (arr.getD 1 0 <<< 8)))
      ||| (0x00FF0000 &&& (arr.getD 2 0 <<< 16)))
      ||| (0xFF000000 &&& (arr.getD 3 0 <<< 24)))
  else none

end ByteManipulation

open ByteManipulation

/-- Embedding of the `ChaCha20` struct (src/chacha20.rs): a 16-word state. -/
structure ChaCha20 where
  state : List Nat

namespace ChaCha20

/-- Embedding of `ChaCha20::rotate_left` (src/chacha20.rs):
`(value << shift) | (value >> (32 - shift))` on `u32`, where the left
shift truncates to 32 bits as Rust's `u32` does. -/
def rotate_left (value shift : Nat) : Nat :=
  ((value <<< shift) % 2 ^ 32) ||| (value >>> (32 - shift))

/-- Embedding of `ChaCha20::round` (src/chacha20.rs): one quarter round on
positions `(a, b, c, d)` of the state, with wrapping additions and the
rotation amounts 16, 12, 8, 7, in the source's exact order. -/
def round (state : List Nat) (vector : Nat × Nat × Nat × Nat) : List Nat :=
  let (a, b, c, d) := vector
  let state := state.set a ((state.getD a 0 + state.getD b 0) % 2 ^ 32)
  let state := state.set d (rotate_left (state.getD d 0 ^^^ state.getD a 0) 16)
  let state := state.set c ((state.getD c 0 + state.getD d 0) % 2 ^ 32)
  let state := state.set b (rotate_left (state.getD b 0 ^^^ state.getD c 0) 12)
  let state := state.set a ((state.getD a 0 + state.getD b 0) % 2 ^ 32)
  let state := state.set d (rotate_left (state.getD d 0 ^^^ state.getD a 0) 8)
  let state := state.set c ((state.getD c 0 + state.getD d 0) % 2 ^ 32)
  let state := state.set b (rotate_left (state.getD b 0 ^^^ state.getD c 0) 7)
  state

/-- One iteration of the loop body of `ChaCha20::block`: four column
rounds followed by four diagonal rounds, in the source's order. -/
def double_round (state : List Nat) : List Nat :=
  round (round (round (round
    (round (round (round (round state
      (0, 4, 8, 12)) (1, 5, 9, 13)) (2, 6, 10, 14)) (3, 7, 11, 15))
      (0, 5, 10, 15)) (1, 6, 11, 12)) (2, 7, 8, 13)) (3, 4, 9, 14)

/-- The 20-round core of `ChaCha20::block`: the working state after the
`for _ in 0..10` loop over the eight quarter rounds. -/
def working_state (state : List Nat) : List Nat :=
  (List.range 10).foldl (fun ws _ => double_round ws) state

/-- Embedding of `ChaCha20::block` (src/chacha20.rs): clone the state, run
the 10 double rounds, then add the original state back word-wise with
wrapping addition (the feed-forward step). -/
def block (c : ChaCha20) : List Nat :=
  List.zipWith (fun w v => (w + v) % 2 ^ 32) (working_state c.state) c.state

/-- Embedding of `ChaCha20::next` (src/chacha20.rs): compute the output
block from the current state, then increment the counter word (index 12)
with wraparound.  Returned as (output block, updated generator). -/
def next (c : ChaCha20) : List Nat × ChaCha20 :=
  let next_state := block c
  (next_state, ⟨c.state.set 12 ((c.state.getD 12 0 + 1) % 2 ^ 32)⟩)

/-- Embedding of `ChaCha20::new` (src/chacha20.rs): assert the key is 32
bytes and the nonce 12 bytes (modelled by `Option`), then build the state:
constants in words 0–3, key words via the two nested loops with offsets
`i * 16 + j * 4` into words `4 + i * 4 + j`, the counter in word 12, and
nonce words via offsets `i * 4` into words `13 + i`. -/
def new (key nonce : List Nat) (counter : Nat) : Option ChaCha20 :=
  if key.length = 32 ∧ nonce.length = 12 then
    let state := List.replicate 16 0
    let state := state.set 0 0x61707865
    let state := state.set 1 0x3320646e
    let state := state.set 2 0x79622d32
    let state := state.set 3 0x6b206574
    let state := (List.range 2).foldl (fun st i =>
      (List.range 4).foldl (fun st j =>
        let array_start_offset := i * 16 + j * 4
        st.set (4 + i * 4 + j)
          ((u8_array_to_u32_le ((key.drop array_start_offset).take 4)).getD 0))
        st) state
    let state := state.set 12 counter
    let state := (List.range 3).foldl (fun st i =>
      let array_start_offset := i * 4
      st.set (13 + i)
        ((u8_array_to_u32_le ((nonce.drop array_start_offset).take 4)).getD 0))
      state
    some ⟨state⟩
  else none

/-- One step of repeated keystream generation: the generator left behind
by a `next()` call. -/
def advance (c : ChaCha20) : ChaCha20 := (next c).2

/-- The list of output blocks produced by `n` successive `next()` calls. -/
def next_outputs (c : ChaCha20) : Nat → List (List Nat)
  | 0 => []
  | n + 1 => (next c).1 :: next_outputs (advance c) n

end ChaCha20

/-- The mathematical 32-bit left rotation, written arithmetically: the top
`shift` bits wrap around to the bottom. -/
def rotl32_math (value shift : Nat) : Nat :=
  (value * 2 ^ shift + value / 2 ^ (32 - shift)) % 2 ^ 32

/-- The quarter round exactly as the specification words it: on a 4-tuple
(a, b, c, d) of words perform, in order, a += b, d = rotl(d ^ a, 16);
c += d, b = rotl(b ^ c, 12); a += b, d = rotl(d ^ a, 8);
c += d, b = rotl(b ^ c, 7), all additions wrapping modulo 2^32. -/
def quarter_round_spec (a b c d : Nat) : Nat × Nat × Nat × Nat :=
  let a := (a + b) % 2 ^ 32
  let d := ChaCha20.rotate_left (d ^^^ a) 16
  let c := (c + d) % 2 ^ 32
  let b := ChaCha20.rotate_left (b ^^^ c) 12
  let a := (a + b) % 2 ^ 32
  let d := ChaCha20.rotate_left (d ^^^ a) 8
  let c := (c + d) % 2 ^ 32
  let b := ChaCha20.rotate_left (b ^^^ c) 7
  (a, b, c, d)

/-- Apply the specification's quarter round to four word positions of the
working state. -/
def apply_quarter_round (s : List Nat) (a b c d : Nat) : List Nat :=
  let r := quarter_round_spec (s.getD a 0) (s.getD b 0) (s.getD c 0) (s.getD d 0)
  (((s.set a r.1).set b r.2.1).set c r.2.2.1).set d r.2.2.2

/-- One double round as mandated by the specification: quarter rounds on
the four column tuples, then on the four diagonal tuples. -/
def double_round_spec (s : List Nat) : List Nat :=
  apply_quarter_round (apply_quarter_round (apply_quarter_round
    (apply_quarter_round (apply_quarter_round (apply_quarter_round
      (apply_quarter_round (apply_quarter_round s 0 4 8 12) 1 5 9 13)
        2 6 10 14) 3 7 11 15) 0 5 10 15) 1 6 11 12) 2 7 8 13) 3 4 9 14

/-- The block transform as mandated by the specification: 10 iterations of
the double round on a copy of the state, then word-wise feed-forward
addition of the original state modulo 2^32. -/
def block_spec (s : List Nat) : List Nat :=
  List.zipWith (fun w v => (w + v) % 2 ^ 32)
    ((List.range 10).foldl (fun ws _ => double_round_spec ws) s) s

namespace ChaCha20Test

/-- Embedding of the test helper `format_expected` (src/chacha20.rs): turn
a 64-byte expected block into 16 words by little-endian decoding each
4-byte chunk. -/
def format_expected (expected : List Nat) : List Nat :=
  (List.range 16).map (fun i =>
    (u8_array_to_u32_le ((expected.drop (i * 4)).take 4)).getD 0)

/-- Key of the first RFC 7539 test (`test_state`): bytes 0x00..0x1f. -/
def test_key : List Nat :=
  [0x00, 0x01, 0x02, 0x03, 0x04, 0x05, 0x06, 0x07,
   0x08, 0x09, 0x0a, 0x0b, 0x0c, 0x0d, 0x0e, 0x0f,
   0x10, 0x11, 0x12, 0x13, 0x14, 0x15, 0x16, 0x17,
   0x18, 0x19, 0x1a, 0x1b, 0x1c, 0x1d, 0x1e, 0x1f]

/-- Nonce of the first RFC 7539 test (`test_state`). -/
def test_nonce : List Nat :=
  [0x00, 0x00, 0x00, 0x09,
   0x00, 0x00, 0x00, 0x4a,
   0x00, 0x00, 0x00, 0x00]

/-- Expected 64-byte block of the first RFC 7539 test (`test_state`). -/
def expected_vector1 : List Nat :=
  [0x10, 0xf1, 0xe7, 0xe4, 0xd1, 0x3b, 0x59, 0x15,
   0x50, 0x0f, 0xdd, 0x1f, 0xa3, 0x20, 0x71, 0xc4,
   0xc7, 0xd1, 0xf4, 0xc7, 0x33, 0xc0, 0x68, 0x03,
   0x04, 0x22, 0xaa, 0x9a, 0xc3, 0xd4, 0x6c, 0x4e,
   0xd2, 0x82, 0x64, 0x46, 0x07, 0x9f, 0xaa, 0x09,
   0x14, 0xc2, 0xd7, 0x05, 0xd9, 0x8b, 0x02, 0xa2,
   0xb5, 0x12, 0x9c, 0xd1, 0xde, 0x16, 0x4e, 0xb9,
   0xcb, 0xd0, 0x83, 0xe8, 0xa2, 0x50, 0x3c, 0x4e]

/-- First expected 64-byte block of `test_multiple_states` (all-zero key
and nonce, counter 0). -/
def expected_block1 : List Nat :=
  [0x76, 0xb8, 0xe0, 0xad, 0xa0, 0xf1, 0x3d, 0x90,
   0x40, 0x5d, 0x6a, 0xe5, 0x53, 0x86, 0xbd, 0x28,
   0xbd, 0xd2, 0x19, 0xb8, 0xa0, 0x8d, 0xed, 0x1a,
   0xa8, 0x36, 0xef, 0xcc, 0x8b, 0x77, 0x0d, 0xc7,
   0xda, 0x41, 0x59, 0x7c, 0x51, 0x57, 0x48, 0x8d,
   0x77, 0x24, 0xe0, 0x3f, 0xb8, 0xd8, 0x4a, 0x37,
   0x6a, 0x43, 0xb8, 0xf4, 0x15, 0x18, 0xa1, 0x1c,
   0xc3, 0x87, 0xb6, 0x69, 0xb2, 0xee, 0x65, 0x86]

/-- Second expected 64-byte block of `test_multiple_states`. -/
def expected_block2 : List Nat :=
  [0x9f, 0x07, 0xe7, 0xbe, 0x55, 0x51, 0x38, 0x7a,
   0x98, 0xba, 0x97, 0x7c, 0x73, 0x2d, 0x08, 0x0d,
   0xcb, 0x0f, 0x29, 0xa0, 0x48, 0xe3, 0x65, 0x69,
   0x12, 0xc6, 0x53, 0x3e, 0x32, 0xee, 0x7a, 0xed,
   0x29, 0xb7, 0x21, 0x76, 0x9c, 0xe6, 0x4e, 0x43,
   0xd5, 0x71, 0x33, 0xb0, 0x74, 0xd8, 0x39, 0xd5,
   0x31, 0xed, 0x1f, 0x28, 0x51, 0x0a, 0xfb, 0x45,
   0xac, 0xe1, 0x0a, 0x1f, 0x4b, 0x79, 0x4d, 0x6f]

end ChaCha20Test

open ChaCha20 ChaCha20Test

/-- An 8-bit mask shifted up by `k` bits keeps a shifted byte unchanged. -/
lemma mask_and_shifted (b k : Nat) (hb : b < 2 ^ 8) :
    ((2 ^ 8 - 1) * 2 ^ k) &&& (b <<< k) = b <<< k := by
  apply Nat.eq_of_testBit_eq
  intro j
  rw [Nat.testBit_and, Nat.mul_comm, Nat.testBit_mul_pow_two,
    Nat.testBit_shiftLeft, Nat.testBit_two_pow_sub_one]
  by_cases hjk : k ≤ j
  · by_cases hj8 : j - k < 8
    · simp [hjk, hj8]
    · have hbj : b < 2 ^ (j - k) :=
        lt_of_lt_of_le hb (Nat.pow_le_pow_right (by norm_num) (by omega))
      simp [hjk, hj8, Nat.testBit_lt_two_pow hbj]
  · simp [hjk]

/-- OR of a value below `2 ^ n` with a multiple of `2 ^ n` is addition. -/
lemma lor_eq_add_of_lt (a b n : Nat) (hb : b < 2 ^ n) :
    b ||| a * 2 ^ n = b + a * 2 ^ n := by
  have h := Nat.mul_add_lt_is_or hb a
  rw [Nat.or_comm, Nat.mul_comm a, ← h]
  ring

/-- The OR-accumulation of the four masked shifted bytes in
`u8_array_to_u32_le` computes the little-endian value of the bytes. -/
lemma four_byte_sum (b0 b1 b2 b3 : Nat) (h0 : b0 < 256) (h1 : b1 < 256)
    (h2 : b2 < 256) (h3 : b3 < 256) :
    ((((0 : Nat) ||| (0x000000FF &&& b0)) ||| (0x0000FF00 &&& (b1 <<< 8)))
        ||| (0x00FF0000 &&& (b2 <<< 16))) ||| (0xFF000000 &&& (b3 <<< 24)) =
      b0 + 256 * b1 + 65536 * b2 + 16777216 * b3 := by
  have e0 : (0x000000FF : Nat) &&& b0 = b0 := by
    simpa using mask_and_shifted b0 0 h0
  have e1 : (0x0000FF00 : Nat) &&& (b1 <<< 8) = b1 <<< 8 := by
    simpa using mask_and_shifted b1 8 h1
  have e2 : (0x00FF0000 : Nat) &&& (b2 <<< 16) = b2 <<< 16 := by
    simpa using mask_and_shifted b2 16 h2
  have e3 : (0xFF000000 : Nat) &&& (b3 <<< 24) = b3 <<< 24 := by
    simpa using mask_and_shifted b3 24 h3
  rw [e0, e1, e2, e3, Nat.zero_or, Nat.shiftLeft_eq, Nat.shiftLeft_eq,
    Nat.shiftLeft_eq]
  have s1 : b0 ||| b1 * 2 ^ 8 = b0 + b1 * 2 ^ 8 :=
    lor_eq_add_of_lt b1 b0 8 h0
  have s2 : (b0 + b1 * 2 ^ 8) ||| b2 * 2 ^ 16 = (b0 + b1 * 2 ^ 8) + b2 * 2 ^ 16 :=
    lor_eq_add_of_lt b2 (b0 + b1 * 2 ^ 8) 16 (by norm_num; omega)
  have s3 : (b0 + b1 * 2 ^ 8 + b2 * 2 ^ 16) ||| b3 * 2 ^ 24 =
      (b0 + b1 * 2 ^ 8 + b2 * 2 ^ 16) + b3 * 2 ^ 24 :=
    lor_eq_add_of_lt b3 (b0 + b1 * 2 ^ 8 + b2 * 2 ^ 16) 24 (by norm_num; omega)
  rw [s1, s2, s3]
  norm_num
  ring

/-- C8: `u8_array_to_u32_le` decodes exactly 4 bytes little-endian (byte 0
least significant), yielding `b0 + 256·b1 + 65536·b2 + 16777216·b3`; it
fails on every slice whose length is not 4; `[1,1,1,1]` decodes to
16843009 and the bytes of "AAAA" decode to 1094795585. -/
theorem u8_array_to_u32_le_spec :
    (∀ b0 b1 b2 b3 : Nat, b0 < 256 → b1 < 256 → b2 < 256 → b3 < 256 →
      u8_array_to_u32_le [b0, b1, b2, b3] =
        some (b0 + 256 * b1 + 65536 * b2 + 16777216 * b3)) ∧
    (∀ arr : List Nat, arr.length ≠ 4 → u8_array_to_u32_le arr = none) ∧
    u8_array_to_u32_le [1, 1, 1, 1] = some 16843009 ∧
    u8_array_to_u32_le [65, 65, 65, 65] = some 1094795585 := by
  refine ⟨?_, ?_, by decide, by decide⟩
  · intro b0 b1 b2 b3 h0 h1 h2 h3
    have hrfl : u8_array_to_u32_le [b0, b1, b2, b3] =
        some (((((0 : Nat)
          ||| (0x000000FF &&& b0))
          ||| (0x0000FF00 &&& (b1 <<< 8)))
          ||| (0x00FF0000 &&& (b2 <<< 16)))
          ||| (0xFF000000 &&& (b3 <<< 24))) := rfl
    rw [hrfl, four_byte_sum b0 b1 b2 b3 h0 h1 h2 h3]
  · intro arr harr
    rw [u8_array_to_u32_le, if_neg harr]

/-- Witness for C8: the decode theorem applied at the bytes [2, 3, 5, 7]. -/
theorem u8_array_to_u32_le_spec_witness :
    u8_array_to_u32_le [2, 3, 5, 7] =
      some (2 + 256 * 3 + 65536 * 5 + 16777216 * 7) :=
  u8_array_to_u32_le_spec.1 2 3 5 7 (by decide) (by decide) (by decide)
    (by decide)

/-- C10: on every 4-byte input, the loop-with-shifted-mask decoder
`string_to_u32_le` agrees with the unrolled fixed-mask decoder
`u8_array_to_u32_le`. -/
theorem string_to_u32_le_eq_u8_array_to_u32_le (s : List Nat)
    (h : s.length = 4) :
    string_to_u32_le s = u8_array_to_u32_le s := by
  obtain ⟨b0, s, rfl⟩ := List.exists_of_length_succ s h
  have h1 : s.length = 3 := by simpa using h
  obtain ⟨b1, s, rfl⟩ := List.exists_of_length_succ s h1
  have h2 : s.length = 2 := by simpa using h1
  obtain ⟨b2, s, rfl⟩ := List.exists_of_length_succ s h2
  have h3 : s.length = 1 := by simpa using h2
  obtain ⟨b3, s, rfl⟩ := List.exists_of_length_succ s h3
  have h4 : s.length = 0 := by simpa using h3
  rw [List.length_eq_zero] at h4
  subst h4
  rfl

/-- Witness for C10: both decoders agree on the bytes of "AAAA". -/
theorem string_to_u32_le_eq_u8_array_to_u32_le_witness :
    string_to_u32_le [65, 65, 65, 65] = u8_array_to_u32_le [65, 65, 65, 65] :=
  string_to_u32_le_eq_u8_array_to_u32_le [65, 65, 65, 65] (by decide)

/-- C9: for every 32-bit value and every shift strictly between 0 and 32
(as at all call sites, which pass 16, 12, 8 or 7), both shift amounts used
by `rotate_left` are strictly below 32 (so no shift-overflow branch is
reachable), the result is a 32-bit value, and it equals the true 32-bit
left rotation. -/
theorem rotate_left_correct (value shift : Nat) (hv : value < 2 ^ 32)
    (hpos : 0 < shift) (hlt : shift < 32) :
    shift < 32 ∧ 32 - shift < 32 ∧ rotate_left value shift < 2 ^ 32 ∧
      rotate_left value shift = rotl32_math value shift := by
  set m := 32 - shift with hm
  have hmpos : 0 < m := by omega
  have hpow : (2 : Nat) ^ m * 2 ^ shift = 2 ^ 32 := by
    rw [← pow_add]
    congr 1
    omega
  have key1 : value <<< shift % 2 ^ 32 = value % 2 ^ m * 2 ^ shift := by
    rw [Nat.shiftLeft_eq, ← hpow, Nat.mul_mod_mul_right]
  have key2 : value >>> m = value / 2 ^ m := Nat.shiftRight_eq_div_pow value m
  have hdiv : value / 2 ^ m < 2 ^ shift := by
    rw [Nat.div_lt_iff_lt_mul (Nat.two_pow_pos m), Nat.mul_comm, hpow]
    exact hv
  have hor : value % 2 ^ m * 2 ^ shift ||| value / 2 ^ m =
      value % 2 ^ m * 2 ^ shift + value / 2 ^ m := by
    have h := Nat.mul_add_lt_is_or hdiv (value % 2 ^ m)
    rw [Nat.mul_comm (2 ^ shift)] at h
    exact h.symm
  have hrot : rotate_left value shift =
      value % 2 ^ m * 2 ^ shift + value / 2 ^ m := by
    rw [rotate_left, ← hm, key1, key2, hor]
  have hbound : value % 2 ^ m * 2 ^ shift + value / 2 ^ m < 2 ^ 32 := by
    have hmod : value % 2 ^ m < 2 ^ m := Nat.mod_lt _ (Nat.two_pow_pos m)
    have hmul : (value % 2 ^ m + 1) * 2 ^ shift ≤ 2 ^ m * 2 ^ shift :=
      Nat.mul_le_mul_right _ (by omega)
    rw [Nat.add_mul, one_mul, hpow] at hmul
    omega
  have hmath : rotl32_math value shift =
      value % 2 ^ m * 2 ^ shift + value / 2 ^ m := by
    have ha : value * 2 ^ shift % 2 ^ 32 = value % 2 ^ m * 2 ^ shift := by
      rw [← hpow, Nat.mul_mod_mul_right]
    have hb : value / 2 ^ m % 2 ^ 32 = value / 2 ^ m :=
      Nat.mod_eq_of_lt (lt_of_le_of_lt (Nat.div_le_self _ _) hv)
    rw [rotl32_math, ← hm, Nat.add_mod, ha, hb, Nat.mod_eq_of_lt hbound]
  refine ⟨hlt, by omega, ?_, ?_⟩
  · rw [hrot]
    exact hbound
  · rw [hrot, hmath]

/-- Witness for C9: the rotation theorem applied at value 0x12345678 and
shift 16. -/
theorem rotate_left_correct_witness :
    16 < 32 ∧ 32 - 16 < 32 ∧ rotate_left 0x12345678 16 < 2 ^ 32 ∧
      rotate_left 0x12345678 16 = rotl32_math 0x12345678 16 :=
  rotate_left_correct 0x12345678 16 (by decide) (by decide) (by decide)

/-- C1: with key bytes 0x00..0x1f, the nonce whose words are 0x00000009,
0x0000004a, 0x00000000, and initial counter 1, the first `next()` returns
exactly the 16 words obtained by little-endian decoding the 64-byte
RFC 7539 §2.4.2 block beginning 0x10 0xf1 0xe7 0xe4. -/
theorem rfc7539_vector1_first_block :
    (new test_key test_nonce 1).map (fun c => (next c).1) =
      some (format_expected expected_vector1) := by
  decide

/-- C6: from the all-zero key, all-zero nonce and counter 0, the first
`next()` yields the block beginning 0x76 0xb8 0xe0 0xad and the second
`next()` yields the block beginning 0x9f 0x07 0xe7 0xbe, matching the full
64-byte RFC sequences listed in `test_multiple_states`. -/
theorem rfc7539_vector2_two_blocks :
    (new (List.replicate 32 0) (List.replicate 12 0) 0).map
        (fun c => ((next c).1, (next (next c).2).1)) =
      some (format_expected expected_block1, format_expected expected_block2) := by
  decide

/-- Reading a just-written position of a list. -/
lemma getD_set_self (l : List Nat) (i v : Nat) (h : i < l.length) :
    (l.set i v).getD i 0 = v := by
  simp [List.getD_eq_getElem?_getD, List.getElem?_set_self h]

/-- Reading a position other than the one just written. -/
lemma getD_set_ne (l : List Nat) (i j v : Nat) (hij : i ≠ j) :
    (l.set i v).getD j 0 = l.getD j 0 := by
  simp [List.getD_eq_getElem?_getD, List.getElem?_set_ne hij]

/-- Indexing the word-wise feed-forward addition. -/
lemma getD_zipWith_mod (l1 l2 : List Nat) (i : Nat) (h1 : i < l1.length)
    (h2 : i < l2.length) :
    (List.zipWith (fun w v => (w + v) % 2 ^ 32) l1 l2).getD i 0 =
      (l1.getD i 0 + l2.getD i 0) % 2 ^ 32 := by
  simp [List.getD_eq_getElem?_getD, List.getElem?_zipWith,
    List.getElem?_eq_getElem h1, List.getElem?_eq_getElem h2]

/-- A quarter round does not change the length of the state. -/
lemma length_round (s : List Nat) (v : Nat × Nat × Nat × Nat) :
    (ChaCha20.round s v).length = s.length := by
  obtain ⟨a, b, c, d⟩ := v
  simp [ChaCha20.round]

/-- A double round does not change the length of the state. -/
lemma length_double_round (s : List Nat) :
    (double_round s).length = s.length := by
  simp [double_round, length_round]

/-- The 10-iteration round loop does not change the length of the state. -/
lemma length_rounds_loop (s : List Nat) (n : Nat) :
    ((List.range n).foldl (fun ws _ => double_round ws) s).length = s.length := by
  induction n with
  | zero => rfl
  | succ n ih =>
    rw [List.range_succ, List.foldl_append]
    simp [length_double_round, ih]

/-- The working state after the 20 rounds keeps the state's length. -/
lemma length_working_state (s : List Nat) :
    (working_state s).length = s.length :=
  length_rounds_loop s 10

/-- C5: for every 16-word state, word i of the block returned equals the
post-round working word i plus the pre-round original state word i, modulo
2^32: the rounds operate on a copy and the original state is the value
added back in the feed-forward step. -/
theorem block_feed_forward (c : ChaCha20) (h : c.state.length = 16)
    (i : Nat) (hi : i < 16) :
    (block c).getD i 0 =
      ((working_state c.state).getD i 0 + c.state.getD i 0) % 2 ^ 32 := by
  rw [block]
  exact getD_zipWith_mod _ _ i (by rw [length_working_state, h]; exact hi)
    (by rw [h]; exact hi)

/-- Witness for C5: the feed-forward law applied to the state
[0, 1, ..., 15] at word 5. -/
theorem block_feed_forward_witness :
    (block ⟨List.range 16⟩).getD 5 0 =
      ((working_state (List.range 16)).getD 5 0 +
        (List.range 16).getD 5 0) % 2 ^ 32 :=
  block_feed_forward ⟨List.range 16⟩ (by decide) 5 (by decide)

/-- The block returned by `next()` is the block transform of the current
state. -/
lemma next_fst (c : ChaCha20) : (next c).1 = block c := by
  simp only [next]

/-- The state left behind by `next()` is the old state with word 12
incremented modulo 2^32. -/
lemma next_snd_state (c : ChaCha20) :
    (next c).2.state = c.state.set 12 ((c.state.getD 12 0 + 1) % 2 ^ 32) := by
  simp only [next]

/-- C7: construction fails exactly when the key is not 32 bytes or the
nonce is not 12 bytes (so 31/33-byte keys and 11/13-byte nonces are
rejected, never padded or truncated), and under valid lengths no core
operation can fail: the constructed state has its 16 words, and `next()`
always yields a 16-word block and a well-formed 16-word successor state. -/
theorem new_length_validation :
    (∀ (key nonce : List Nat) (counter : Nat),
      (new key nonce counter).isSome = true ↔
        (key.length = 32 ∧ nonce.length = 12)) ∧
    (∀ (key nonce : List Nat) (counter : Nat) (c : ChaCha20),
      new key nonce counter = some c → c.state.length = 16) ∧
    (∀ c : ChaCha20, c.state.length = 16 →
      (next c).1.length = 16 ∧ (next c).2.state.length = 16) := by
  refine ⟨?_, ?_, ?_⟩
  · intro key nonce counter
    rw [new]
    by_cases h : key.length = 32 ∧ nonce.length = 12
    · rw [if_pos h]
      simpa using h
    · rw [if_neg h]
      simpa using h
  · intro key nonce counter c hc
    rw [new] at hc
    by_cases h : key.length = 32 ∧ nonce.length = 12
    · rw [if_pos h] at hc
      obtain rfl := Option.some.inj hc
      rfl
    · rw [if_neg h] at hc
      exact absurd hc (by simp)
  · intro c h
    constructor
    · rw [next_fst, block, List.length_zipWith, length_working_state, h]
      exact min_self 16
    · rw [next_snd_state, List.length_set, h]

/-- Witness for C7: a 32-byte key with a 12-byte nonce is accepted, and a
31-byte key is rejected. -/
theorem new_length_validation_witness :
    (new (List.replicate 32 0) (List.replicate 12 0) 0).isSome = true ∧
      ¬((new (List.replicate 31 0) (List.replicate 12 0) 0).isSome = true) := by
  constructor
  · exact (new_length_validation.1 (List.replicate 32 0)
      (List.replicate 12 0) 0).mpr (by decide)
  · intro hcontra
    have h := (new_length_validation.1 (List.replicate 31 0)
      (List.replicate 12 0) 0).mp hcontra
    simp at h

/-- C3: for every 32-byte key, 12-byte nonce and counter, `new` builds the
16-word state with the four constants in words 0–3, the little-endian
decode of key bytes 4i..4i+3 in word 4+i, the counter verbatim in word 12,
and the little-endian decode of nonce bytes 4i..4i+3 in word 13+i; the
slice decodes all succeed (each slice has exactly 4 bytes). -/
theorem new_state_layout (key nonce : List Nat) (counter : Nat)
    (hk : key.length = 32) (hn : nonce.length = 12) :
    new key nonce counter = some (ChaCha20.mk
      [0x61707865, 0x3320646e, 0x79622d32, 0x6b206574,
       (u8_array_to_u32_le ((key.drop 0).take 4)).getD 0,
       (u8_array_to_u32_le ((key.drop 4).take 4)).getD 0,
       (u8_array_to_u32_le ((key.drop 8).take 4)).getD 0,
       (u8_array_to_u32_le ((key.drop 12).take 4)).getD 0,
       (u8_array_to_u32_le ((key.drop 16).take 4)).getD 0,
       (u8_array_to_u32_le ((key.drop 20).take 4)).getD 0,
       (u8_array_to_u32_le ((key.drop 24).take 4)).getD 0,
       (u8_array_to_u32_le ((key.drop 28).take 4)).getD 0,
       counter,
       (u8_array_to_u32_le ((nonce.drop 0).take 4)).getD 0,
       (u8_array_to_u32_le ((nonce.drop 4).take 4)).getD 0,
       (u8_array_to_u32_le ((nonce.drop 8).take 4)).getD 0]) ∧
    (∀ i, i < 8 →
      (u8_array_to_u32_le ((key.drop (4 * i)).take 4)).isSome = true) ∧
    (∀ i, i < 3 →
      (u8_array_to_u32_le ((nonce.drop (4 * i)).take 4)).isSome = true) := by
  refine ⟨?_, ?_, ?_⟩
  · rw [new, if_pos ⟨hk, hn⟩]
    rfl
  · intro i hi
    have hlen : ((key.drop (4 * i)).take 4).length = 4 := by
      simp only [List.length_take, List.length_drop, hk]
      omega
    rw [u8_array_to_u32_le, if_pos hlen]
    rfl
  · intro i hi
    have hlen : ((nonce.drop (4 * i)).take 4).length = 4 := by
      simp only [List.length_take, List.length_drop, hn]
      omega
    rw [u8_array_to_u32_le, if_pos hlen]
    rfl

/-- Witness for C3: the state layout at the first RFC test's key and
nonce, counter 1. -/
theorem new_state_layout_witness :
    new test_key test_nonce 1 = some (ChaCha20.mk
      [0x61707865, 0x3320646e, 0x79622d32, 0x6b206574,
       (u8_array_to_u32_le ((test_key.drop 0).take 4)).getD 0,
       (u8_array_to_u32_le ((test_key.drop 4).take 4)).getD 0,
       (u8_array_to_u32_le ((test_key.drop 8).take 4)).getD 0,
       (u8_array_to_u32_le ((test_key.drop 12).take 4)).getD 0,
       (u8_array_to_u32_le ((test_key.drop 16).take 4)).getD 0,
       (u8_array_to_u32_le ((test_key.drop 20).take 4)).getD 0,
       (u8_array_to_u32_le ((test_key.drop 24).take 4)).getD 0,
       (u8_array_to_u32_le ((test_key.drop 28).take 4)).getD 0,
       1,
       (u8_array_to_u32_le ((test_nonce.drop 0).take 4)).getD 0,
       (u8_array_to_u32_le ((test_nonce.drop 4).take 4)).getD 0,
       (u8_array_to_u32_le ((test_nonce.drop 8).take 4)).getD 0]) :=
  (new_state_layout test_key test_nonce 1 (by decide) (by decide)).1

/-- Iterated advancing preserves the 16-word state length. -/
lemma length_advance_iterate (c : ChaCha20) (h : c.state.length = 16)
    (k : Nat) : (advance^[k] c).state.length = 16 := by
  induction k with
  | zero => exact h
  | succ k ih =>
    rw [Function.iterate_succ_apply', advance, next_snd_state,
      List.length_set]
    exact ih

/-- After k `next()` calls the counter word holds the initial counter
plus k, modulo 2^32. -/
lemma counter_iterate (c : ChaCha20) (h : c.state.length = 16)
    (hc : c.state.getD 12 0 < 2 ^ 32) (k : Nat) :
    (advance^[k] c).state.getD 12 0 = (c.state.getD 12 0 + k) % 2 ^ 32 := by
  induction k with
  | zero =>
    rw [Function.iterate_zero_apply, Nat.add_zero, Nat.mod_eq_of_lt hc]
  | succ k ih =>
    rw [Function.iterate_succ_apply', advance, next_snd_state,
      getD_set_self _ _ _ (by rw [length_advance_iterate c h k]; omega),
      ih, Nat.mod_add_mod, Nat.add_assoc]

/-- `next()` never touches a state word other than the counter word. -/
lemma words_iterate (c : ChaCha20) (k i : Nat) (hi : i ≠ 12) :
    (advance^[k] c).state.getD i 0 = c.state.getD i 0 := by
  induction k with
  | zero => rfl
  | succ k ih =>
    rw [Function.iterate_succ_apply', advance, next_snd_state,
      getD_set_ne _ _ _ _ (Ne.symm hi), ih]

/-- The k-th of n successive `next()` outputs is the block transform of
the k-times advanced generator. -/
lemma next_outputs_eq_block (c : ChaCha20) (n k : Nat) (hk : k < n) :
    (next_outputs c n).getD k [] = block (advance^[k] c) := by
  induction n generalizing c k with
  | zero => omega
  | succ n ih =>
    cases k with
    | zero =>
      show ((next c).1 :: next_outputs (advance c) n).getD 0 [] =
        block (advance^[0] c)
      rw [List.getD_cons_zero, next_fst, Function.iterate_zero_apply]
    | succ k =>
      show ((next c).1 :: next_outputs (advance c) n).getD (k + 1) [] =
        block (advance^[k + 1] c)
      rw [List.getD_cons_succ, ih (advance c) k (by omega),
        ← Function.iterate_succ_apply]

/-- C4: one `next()` call increments state word 12 by exactly 1 modulo
2^32 (so counter 2^32 − 1 wraps to 0 without error) and leaves the other
15 words unchanged; after k calls the counter is the initial counter plus
k modulo 2^32, and the k-th of n successive output blocks is the block of
the k-times advanced state, so n calls from counter c produce the blocks
for counters c, c+1, …, c+n−1 in order. -/
theorem next_counter_discipline (c : ChaCha20) (h : c.state.length = 16)
    (hc : c.state.getD 12 0 < 2 ^ 32) :
    ((next c).2.state.getD 12 0 = (c.state.getD 12 0 + 1) % 2 ^ 32) ∧
    (∀ i, i < 16 → i ≠ 12 →
      (next c).2.state.getD i 0 = c.state.getD i 0) ∧
    (∀ k, (advance^[k] c).state.getD 12 0 =
      (c.state.getD 12 0 + k) % 2 ^ 32) ∧
    (∀ n k, k < n →
      (next_outputs c n).getD k [] = block (advance^[k] c)) := by
  refine ⟨?_, ?_, counter_iterate c h hc,
    fun n k hk => next_outputs_eq_block c n k hk⟩
  · rw [next_snd_state, getD_set_self _ _ _ (by rw [h]; omega)]
  · intro i hi h12
    rw [next_snd_state, getD_set_ne _ _ _ _ (Ne.symm h12)]

/-- Witness for C4: a generator whose counter word is 2^32 − 1 has
counter 0 after one `next()` call. -/
theorem next_counter_discipline_witness :
    ((next (ChaCha20.mk
      [0, 1, 2, 3, 4, 5, 6, 7, 8, 9, 10, 11, 0xFFFFFFFF, 13, 14, 15])).2
      : ChaCha20).state.getD 12 0 = 0 := by
  have h := (next_counter_discipline (ChaCha20.mk
    [0, 1, 2, 3, 4, 5, 6, 7, 8, 9, 10, 11, 0xFFFFFFFF, 13, 14, 15])
    (by decide) (by decide)).1
  simpa using h

/-- A 16-element list is literally a list of its 16 elements. -/
lemma exists_sixteen (s : List Nat) (h : s.length = 16) :
    ∃ x0 x1 x2 x3 x4 x5 x6 x7 x8 x9 x10 x11 x12 x13 x14 x15 : Nat,
      s = [x0, x1, x2, x3, x4, x5, x6, x7, x8, x9, x10, x11, x12, x13, x14, x15] := by
  obtain ⟨x0, s, rfl⟩ := List.exists_of_length_succ s h
  have h1 : s.length = 15 := by simp at h; omega
  obtain ⟨x1, s, rfl⟩ := List.exists_of_length_succ s h1
  have h2 : s.length = 14 := by simp at h1; omega
  obtain ⟨x2, s, rfl⟩ := List.exists_of_length_succ s h2
  have h3 : s.length = 13 := by simp at h2; omega
  obtain ⟨x3, s, rfl⟩ := List.exists_of_length_succ s h3
  have h4 : s.length = 12 := by simp at h3; omega
  obtain ⟨x4, s, rfl⟩ := List.exists_of_length_succ s h4
  have h5 : s.length = 11 := by simp at h4; omega
  obtain ⟨x5, s, rfl⟩ := List.exists_of_length_succ s h5
  have h6 : s.length = 10 := by simp at h5; omega
  obtain ⟨x6, s, rfl⟩ := List.exists_of_length_succ s h6
  have h7 : s.length = 9 := by simp at h6; omega
  obtain ⟨x7, s, rfl⟩ := List.exists_of_length_succ s h7
  have h8 : s.length = 8 := by simp at h7; omega
  obtain ⟨x8, s, rfl⟩ := List.exists_of_length_succ s h8
  have h9 : s.length = 7 := by simp at h8; omega
  obtain ⟨x9, s, rfl⟩ := List.exists_of_length_succ s h9
  have h10 : s.length = 6 := by simp at h9; omega
  obtain ⟨x10, s, rfl⟩ := List.exists_of_length_succ s h10
  have h11 : s.length = 5 := by simp at h10; omega
  obtain ⟨x11, s, rfl⟩ := List.exists_of_length_succ s h11
  have h12 : s.length = 4 := by simp at h11; omega
  obtain ⟨x12, s, rfl⟩ := List.exists_of_length_succ s h12
  have h13 : s.length = 3 := by simp at h12; omega
  obtain ⟨x13, s, rfl⟩ := List.exists_of_length_succ s h13
  have h14 : s.length = 2 := by simp at h13; omega
  obtain ⟨x14, s, rfl⟩ := List.exists_of_length_succ s h14
  have h15 : s.length = 1 := by simp at h14; omega
  obtain ⟨x15, s, rfl⟩ := List.exists_of_length_succ s h15
  have h16 : s = [] := by
    rw [← List.length_eq_zero]
    rw [List.length_cons] at h15
    omega
  subst h16
  exact ⟨x0, x1, x2, x3, x4, x5, x6, x7, x8, x9, x10, x11, x12, x13, x14, x15, rfl⟩


/-- On a 16-word state the source's quarter round on positions
(0, 4, 8, 12) equals the specification's quarter round there. -/
lemma round_eq_qr0 (s : List Nat) (h : s.length = 16) :
    ChaCha20.round s (0, 4, 8, 12) = apply_quarter_round s 0 4 8 12 := by
  obtain ⟨x0, x1, x2, x3, x4, x5, x6, x7, x8, x9, x10, x11, x12, x13, x14, x15, rfl⟩ := exists_sixteen s h
  simp only [ChaCha20.round, apply_quarter_round, quarter_round_spec,
    List.set_cons_zero, List.set_cons_succ, List.getD_cons_zero,
    List.getD_cons_succ]

/-- On a 16-word state the source's quarter round on positions
(1, 5, 9, 13) equals the specification's quarter round there. -/
lemma round_eq_qr1 (s : List Nat) (h : s.length = 16) :
    ChaCha20.round s (1, 5, 9, 13) = apply_quarter_round s 1 5 9 13 := by
  obtain ⟨x0, x1, x2, x3, x4, x5, x6, x7, x8, x9, x10, x11, x12, x13, x14, x15, rfl⟩ := exists_sixteen s h
  simp only [ChaCha20.round, apply_quarter_round, quarter_round_spec,
    List.set_cons_zero, List.set_cons_succ, List.getD_cons_zero,
    List.getD_cons_succ]

/-- On a 16-word state the source's quarter round on positions
(2, 6, 10, 14) equals the specification's quarter round there. -/
lemma round_eq_qr2 (s : List Nat) (h : s.length = 16) :
    ChaCha20.round s (2, 6, 10, 14) = apply_quarter_round s 2 6 10 14 := by
  obtain ⟨x0, x1, x2, x3, x4, x5, x6, x7, x8, x9, x10, x11, x12, x13, x14, x15, rfl⟩ := exists_sixteen s h
  simp only [ChaCha20.round, apply_quarter_round, quarter_round_spec,
    List.set_cons_zero, List.set_cons_succ, List.getD_cons_zero,
    List.getD_cons_succ]

/-- On a 16-word state the source's quarter round on positions
(3, 7, 11, 15) equals the specification's quarter round there. -/
lemma round_eq_qr3 (s : List Nat) (h : s.length = 16) :
    ChaCha20.round s (3, 7, 11, 15) = apply_quarter_round s 3 7 11 15 := by
  obtain ⟨x0, x1, x2, x3, x4, x5, x6, x7, x8, x9, x10, x11, x12, x13, x14, x15, rfl⟩ := exists_sixteen s h
  simp only [ChaCha20.round, apply_quarter_round, quarter_round_spec,
    List.set_cons_zero, List.set_cons_succ, List.getD_cons_zero,
    List.getD_cons_succ]

/-- On a 16-word state the source's quarter round on positions
(0, 5, 10, 15) equals the specification's quarter round there. -/
lemma round_eq_qr4 (s : List Nat) (h : s.length = 16) :
    ChaCha20.round s (0, 5, 10, 15) = apply_quarter_round s 0 5 10 15 := by
  obtain ⟨x0, x1, x2, x3, x4, x5, x6, x7, x8, x9, x10, x11, x12, x13, x14, x15, rfl⟩ := exists_sixteen s h
  simp only [ChaCha20.round, apply_quarter_round, quarter_round_spec,
    List.set_cons_zero, List.set_cons_succ, List.getD_cons_zero,
    List.getD_cons_succ]

/-- On a 16-word state the source's quarter round on positions
(1, 6, 11, 12) equals the specification's quarter round there. -/
lemma round_eq_qr5 (s : List Nat) (h : s.length = 16) :
    ChaCha20.round s (1, 6, 11, 12) = apply_quarter_round s 1 6 11 12 := by
  obtain ⟨x0, x1, x2, x3, x4, x5, x6, x7, x8, x9, x10, x11, x12, x13, x14, x15, rfl⟩ := exists_sixteen s h
  simp only [ChaCha20.round, apply_quarter_round, quarter_round_spec,
    List.set_cons_zero, List.set_cons_succ, List.getD_cons_zero,
    List.getD_cons_succ]

/-- On a 16-word state the source's quarter round on positions
(2, 7, 8, 13) equals the specification's quarter round there. -/
lemma round_eq_qr6 (s : List Nat) (h : s.length = 16) :
    ChaCha20.round s (2, 7, 8, 13) = apply_quarter_round s 2 7 8 13 := by
  obtain ⟨x0, x1, x2, x3, x4, x5, x6, x7, x8, x9, x10, x11, x12, x13, x14, x15, rfl⟩ := exists_sixteen s h
  simp only [ChaCha20.round, apply_quarter_round, quarter_round_spec,
    List.set_cons_zero, List.set_cons_succ, List.getD_cons_zero,
    List.getD_cons_succ]

/-- On a 16-word state the source's quarter round on positions
(3, 4, 9, 14) equals the specification's quarter round there. -/
lemma round_eq_qr7 (s : List Nat) (h : s.length = 16) :
    ChaCha20.round s (3, 4, 9, 14) = apply_quarter_round s 3 4 9 14 := by
  obtain ⟨x0, x1, x2, x3, x4, x5, x6, x7, x8, x9, x10, x11, x12, x13, x14, x15, rfl⟩ := exists_sixteen s h
  simp only [ChaCha20.round, apply_quarter_round, quarter_round_spec,
    List.set_cons_zero, List.set_cons_succ, List.getD_cons_zero,
    List.getD_cons_succ]

/-- The specification's quarter round application preserves the length. -/
lemma length_apply_quarter_round (s : List Nat) (a b c d : Nat) :
    (apply_quarter_round s a b c d).length = s.length := by
  simp [apply_quarter_round]

/-- The source's double round agrees with the specification's double
round on every 16-word state. -/
lemma double_round_eq_spec (s : List Nat) (h : s.length = 16) :
    double_round s = double_round_spec s := by
  rw [double_round, double_round_spec, round_eq_qr0 s h,
    round_eq_qr1 _ (by simp [length_apply_quarter_round, h]),
    round_eq_qr2 _ (by simp [length_apply_quarter_round, h]),
    round_eq_qr3 _ (by simp [length_apply_quarter_round, h]),
    round_eq_qr4 _ (by simp [length_apply_quarter_round, h]),
    round_eq_qr5 _ (by simp [length_apply_quarter_round, h]),
    round_eq_qr6 _ (by simp [length_apply_quarter_round, h]),
    round_eq_qr7 _ (by simp [length_apply_quarter_round, h])]

/-- The source's round loop agrees with the specification's round loop on
every 16-word state, for any number of iterations. -/
lemma rounds_loop_eq_spec (s : List Nat) (h : s.length = 16) (n : Nat) :
    (List.range n).foldl (fun ws _ => double_round ws) s =
      (List.range n).foldl (fun ws _ => double_round_spec ws) s := by
  induction n with
  | zero => rw [List.range_zero, List.foldl_nil, List.foldl_nil]
  | succ n ih =>
    rw [List.range_succ, List.foldl_append, List.foldl_append,
      List.foldl_cons, List.foldl_nil, List.foldl_cons, List.foldl_nil,
      ← ih]
    exact double_round_eq_spec _ (by rw [length_rounds_loop, h])

/-- C2: the block transform applied by `next()` follows the mandated
schedule exactly: starting from a copy of the 16-word state it performs 10
iterations of a double round — quarter rounds on the column tuples
(0,4,8,12), (1,5,9,13), (2,6,10,14), (3,7,11,15), then on the diagonal
tuples (0,5,10,15), (1,6,11,12), (2,7,8,13), (3,4,9,14) — where each
quarter round performs, in order with wrapping 32-bit arithmetic:
a += b, d = rotl(d ^ a, 16); c += d, b = rotl(b ^ c, 12); a += b,
d = rotl(d ^ a, 8); c += d, b = rotl(b ^ c, 7). -/
theorem block_follows_schedule (c : ChaCha20) (h : c.state.length = 16) :
    (next c).1 = block_spec c.state := by
  rw [next_fst, block, block_spec, working_state,
    rounds_loop_eq_spec c.state h 10]

/-- Witness for C2: the schedule equivalence at the state [0, 1, ..., 15]. -/
theorem block_follows_schedule_witness :
    (next (ChaCha20.mk (List.range 16))).1 = block_spec (List.range 16) :=
  block_follows_schedule (ChaCha20.mk (List.range 16)) (by decide)
